import Mathlib

/-!
Shallow embedding of the HFS API-dispatch and list-streaming module:
the dispatcher made by apiMiddleware, and the list broadcaster
SendListReadable, translated from the TypeScript source.

Modelling conventions:
* JS records and match specs are flat string-valued objects, modelled as
  ordered association lists without duplicate keys (Obj).
* lodash matches(search) performs a partial comparison: every key/value
  pair of search must occur in the target.  On non-object payloads
  (undefined, strings, arrays of records) only the empty spec matches;
  specs are assumed to use ordinary record-field keys, so string indices
  and built-in properties of non-objects are not modelled.
* The debounced flusher is modelled by an explicit pending flag together
  with a flush transition: a call to processBuffer() sets pending, and
  both the timer firing and processBuffer.flush() execute the pending
  invocation, which pushes the whole buffer as one batch and clears it.
* Emission is recorded as a trace: Out.batch for each push of the buffer
  array, Out.eof for push(null) (the stream terminator).
* custom(data) pushes an arbitrary payload; it is modelled with a tag of
  its own, i.e. custom payloads are assumed not to mimic the reserved
  add/remove/update tuples, which the methods of the class never produce.
-/

namespace HFS

/-- A flat JS object: ordered association list of string keys and values. -/
abbrev Obj := List (String × String)

/-- lodash matches(search) applied to a flat object: every key/value pair
of search occurs in o. -/
def matchesObj (search o : Obj) : Bool :=
  search.all fun kv => o.lookup kv.1 == some kv.2

/-- A JS value as it can appear at index 1 of a buffer entry. -/
inductive MVal where
  | undef
  | str (s : String)
  | obj (o : Obj)
  | arr (xs : List Obj)
deriving DecidableEq, Repr

/-- lodash matches(search) applied to an arbitrary entry payload: ordinary
partial comparison on objects; on undefined, strings and arrays only the
empty spec matches (record-field keys never occur on those values). -/
def matchesV (search : Obj) (v : MVal) : Bool :=
  match v with
  | .obj o => matchesObj search o
  | _ => search.isEmpty

/-- Assignment of one key: overwrite in place when the key exists,
append otherwise (JS property-order semantics). -/
def setKey (o : Obj) (k v : String) : Obj :=
  if o.any (fun kv => kv.1 == k) then
    o.map fun kv => if kv.1 == k then (k, v) else kv
  else o ++ [(k, v)]

/-- Object.assign(target, change) on flat objects. -/
def assignObj (target change : Obj) : Obj :=
  change.foldl (fun acc kv => setKey acc kv.1 kv.2) target

/-- One buffered operation tuple, as pushed by the SendListReadable
methods: index 0 is the tag, index 1 the payload used for matching. -/
inductive Entry where
  | add (rec : Obj)
  | addMany (recs : List Obj)
  | remove (search : Obj)
  | update (search change : Obj)
  | ready
  | props (ps : Obj)
  | error (msg : String) (ps : Option Obj)
  | custom (p1 : MVal)
deriving DecidableEq, Repr

/-- The tuple's index 0. add(rec) pushes the tag "add" for a single record
and for an array of records alike. -/
def Entry.tag : Entry → String
  | .add _ => "add"
  | .addMany _ => "add"
  | .remove _ => "remove"
  | .update _ _ => "update"
  | .ready => "ready"
  | .props _ => "props"
  | .error _ _ => "error"
  | .custom _ => "custom"

/-- The tuple's index 1, the value the coalescing scan matches against:
the record for add, the search spec for remove and update, undefined for
ready, the props object for props, the message string for error. -/
def Entry.payload1 : Entry → MVal
  | .add rec => .obj rec
  | .addMany recs => .arr recs
  | .remove s => .obj s
  | .update s _ => .obj s
  | .ready => .undef
  | .props p => .obj p
  | .error m _ => .str m
  | .custom v => v

/-- Object.assign(found[op === add ? 1 : 2], change): merge into the
record of an add, into the change of an update.  For an array payload the
assignment would set non-index properties on the array, which the JSON
serialization drops; the entry is modelled unchanged. -/
def Entry.mergeChange : Entry → Obj → Entry
  | .add rec, c => .add (assignObj rec c)
  | .update s ch, c => .update s (assignObj ch c)
  | e, _ => e

/-- One emission of the underlying object-mode stream. -/
inductive Out where
  | batch (b : List Entry)
  | eof
deriving DecidableEq, Repr

/-- State of one SendListReadable: the pending-operation buffer, the trace
of emissions, whether a debounced flush invocation is pending, and the
lastError field. -/
structure SLState where
  buffer : List Entry
  out : List Out
  pending : Bool
  lastError : Option String
deriving DecidableEq, Repr

/-- State right after super(): empty buffer, nothing emitted, no flush
scheduled. -/
def initSL : SLState := ⟨[], [], false, none⟩

/-- The body of the debounced function: this.push(this.buffer) then
this.buffer = []. -/
def SLState.fire (s : SLState) : SLState :=
  { s with buffer := [], out := s.out ++ [.batch s.buffer], pending := false }

/-- processBuffer.flush(): execute the debounced invocation when one is
pending, otherwise do nothing.  The timer firing performs the same
transition (it only fires while an invocation is pending). -/
def SLState.flush (s : SLState) : SLState :=
  if s.pending then s.fire else s

/-- _push(rec): append to the buffer; beyond the hard limit of 10000
entries call processBuffer.flush() at once, otherwise schedule the
debounced processBuffer(). -/
def SLState.pushOp (s : SLState) (e : Entry) : SLState :=
  if (s.buffer ++ [e]).length > 10000 then
    SLState.flush { s with buffer := s.buffer ++ [e] }
  else
    { s with buffer := s.buffer ++ [e], pending := true }

/-- add(rec) with a single record. -/
def SLState.add (s : SLState) (rec : Obj) : SLState :=
  s.pushOp (.add rec)

/-- add(recs) with an array of records. -/
def SLState.addMany (s : SLState) (recs : List Obj) : SLState :=
  s.pushOp (.addMany recs)

/-- remove(search): find the first buffered entry whose payload matches
search; a found remove makes the call a no-op; any other found entry is
spliced out, and unless it was an add a remove tuple is pushed. -/
def SLState.remove (s : SLState) (search : Obj) : SLState :=
  match s.buffer.findIdx? (fun e => matchesV search e.payload1) with
  | some i =>
    match s.buffer[i]? with
    | some found =>
      if found.tag = "remove" then s
      else if found.tag = "add" then { s with buffer := s.buffer.eraseIdx i }
      else ({ s with buffer := s.buffer.eraseIdx i }).pushOp (.remove search)
    | none => s.pushOp (.remove search)
  | none => s.pushOp (.remove search)

/-- update(search, change): empty change is a no-op; a found remove drops
the call; a found add or update receives the change by Object.assign;
otherwise an update tuple is pushed. -/
def SLState.update (s : SLState) (search change : Obj) : SLState :=
  if change.isEmpty then s
  else
    match s.buffer.findIdx? (fun e => matchesV search e.payload1) with
    | some i =>
      match s.buffer[i]? with
      | some found =>
        if found.tag = "remove" then s
        else if found.tag = "add" || found.tag = "update" then
          { s with buffer := s.buffer.set i (found.mergeChange change) }
        else s.pushOp (.update search change)
      | none => s.pushOp (.update search change)
    | none => s.pushOp (.update search change)

/-- ready(). -/
def SLState.ready (s : SLState) : SLState :=
  s.pushOp .ready

/-- custom(data). -/
def SLState.custom (s : SLState) (v : MVal) : SLState :=
  s.pushOp (.custom v)

/-- props(props). -/
def SLState.props (s : SLState) (p : Obj) : SLState :=
  s.pushOp (.props p)

/-- close(): processBuffer.flush() then push(null). -/
def SLState.close (s : SLState) : SLState :=
  let s2 := s.flush
  { s2 with out := s2.out ++ [.eof] }

/-- error(msg, close, props): push the error tuple, record lastError,
optionally close. -/
def SLState.error (s : SLState) (msg : String) (cl : Bool) (ps : Option Obj) : SLState :=
  let s2 := { s.pushOp (.error msg ps) with lastError := some msg }
  if cl then s2.close else s2

/-- The constructor: with addAtStart present, add each record in order and
then call ready(). -/
def mkSendList (addAtStart : Option (List Obj)) : SLState :=
  match addAtStart with
  | none => initSL
  | some xs => (xs.foldl SLState.add initSL).ready

/-- One public operation on a SendListReadable, the timer firing
included. -/
inductive PubOp where
  | add (rec : Obj)
  | addMany (recs : List Obj)
  | remove (search : Obj)
  | update (search change : Obj)
  | ready
  | custom (v : MVal)
  | props (p : Obj)
  | error (msg : String) (cl : Bool) (ps : Option Obj)
  | close
  | timer
deriving DecidableEq, Repr

/-- Interpretation of one public operation. -/
def applyOp (s : SLState) : PubOp → SLState
  | .add r => s.add r
  | .addMany rs => s.addMany rs
  | .remove sp => s.remove sp
  | .update sp c => s.update sp c
  | .ready => s.ready
  | .custom v => s.custom v
  | .props p => s.props p
  | .error m c p => s.error m c p
  | .close => s.close
  | .timer => s.flush

/-- Run a sequence of public operations. -/
def runOps (start : SLState) (ops : List PubOp) : SLState :=
  ops.foldl applyOp start

/-- The buffer invariant: never more than 10000 entries after an
operation completes, and a flush invocation is pending whenever the
buffer is non-empty. -/
def Inv (s : SLState) : Prop :=
  s.buffer.length ≤ 10000 ∧ (s.buffer ≠ [] → s.pending = true)

/-- A value a handler can return, or throw into the catch of the
dispatcher: a plain record, a string, an ApiError carrying a status, a
generic Error carrying a message, a Readable stream, or an async
generator (a value with a next function). -/
inductive JsVal where
  | obj (o : Obj)
  | str (s : String)
  | apiErr (status : Nat) (msg : String)
  | genErr (msg : String)
  | stream
  | agen
deriving DecidableEq, Repr

/-- A handler call either returns a value or throws (rejects with) one. -/
inductive HandlerOutcome where
  | ret (v : JsVal)
  | thr (v : JsVal)
deriving DecidableEq, Repr

/-- Wire behavior of the middleware for one request: an HTTP status with
a body, or a switch to SSE streaming. -/
inductive Response where
  | json (status : Nat) (body : JsVal)
  | sse
deriving DecidableEq, Repr

/-- The request data the modelled fragment reads: the path, the value of
the csrf cookie when that cookie is present, and the parameters as a
flat object.  The reverse-proxy rewriting and logging read further
context fields that lie outside the modelled fragment. -/
structure Ctx where
  path : String
  csrfCookie : Option String
  params : Obj

/-- res.message or String(res): an Error with an empty message
stringifies to "Error". -/
def errString (m : String) : String :=
  if m = "" then "Error" else m

/-- The try captures a thrown value into res. -/
def settle (f : Obj → HandlerOutcome) (p : Obj) : JsVal :=
  match f p with
  | .ret v => v
  | .thr v => v

/-- csrf and csrf is not strictly equal to params.csrf: the cookie string
must be truthy, so an empty cookie value never blocks. -/
def csrfBlocked (cookie : Option String) (params : Obj) : Bool :=
  match cookie with
  | some c => c != "" && params.lookup "csrf" != some c
  | none => false

/-- Classification of the settled result value, in source order: values
with a next function and Readables go to SSE, then ApiError, then
generic Error, then anything else becomes the body with the default 200
status. -/
def classify (res : JsVal) : Response :=
  match res with
  | .agen => .sse
  | .stream => .sse
  | .apiErr st m => .json st (.str m)
  | .genErr m => .json 400 (.str (errString m))
  | v => .json 200 v

/-- The middleware made by apiMiddleware, for one request: exact-path
lookup, the csrf gate, handler invocation inside try/catch, then
classification.  The second component records whether the handler ran. -/
def dispatch (apis : List (String × (Obj → HandlerOutcome))) (ctx : Ctx) :
    Response × Bool :=
  match apis.lookup ctx.path with
  | none => (.json 404 (.str "invalid api"), false)
  | some f =>
    if csrfBlocked ctx.csrfCookie ctx.params then
      (.json 401 (.str "csrf"), false)
    else
      (classify (settle f ctx.params), true)

/-! Generic list lemmas about the first match inside a buffer split as
pre ++ e :: rest. -/

theorem findIdx_first {α : Type} (p : α → Bool) (l rest : List α) (e : α)
    (hl : ∀ a ∈ l, p a = false) (he : p e = true) :
    (l ++ e :: rest).findIdx? p = some l.length := by
  induction l with
  | nil => simp [List.findIdx?_cons, he]
  | cons a as ih =>
    have ha : p a = false := hl a (by simp)
    have ih2 := ih fun x hx => hl x (by simp [hx])
    simp [List.findIdx?_cons, ha, ih2]

theorem getElem_mid {α : Type} (l rest : List α) (e : α) :
    (l ++ e :: rest)[l.length]? = some e := by
  induction l with
  | nil => simp
  | cons a as ih => simpa using ih

theorem eraseIdx_mid {α : Type} (l rest : List α) (e : α) :
    (l ++ e :: rest).eraseIdx l.length = l ++ rest := by
  induction l with
  | nil => rfl
  | cons a as ih => simp [List.eraseIdx_cons_succ, ih]

theorem set_mid {α : Type} (l rest : List α) (e e2 : α) :
    (l ++ e :: rest).set l.length e2 = l ++ e2 :: rest := by
  induction l with
  | nil => rfl
  | cons a as ih => simp [ih]

theorem eraseIdx_len_le {α : Type} (l : List α) (n : Nat) :
    (l.eraseIdx n).length ≤ l.length := by
  induction l generalizing n with
  | nil => simp [List.eraseIdx]
  | cons a as ih =>
    cases n with
    | zero =>
      simp only [List.eraseIdx_cons_zero, List.length_cons]
      omega
    | succ m =>
      simp only [List.eraseIdx_cons_succ, List.length_cons]
      exact Nat.succ_le_succ (ih m)

/-! Preservation of the buffer invariant by every transition. -/

theorem inv_initSL : Inv initSL :=
  ⟨by simp [initSL], fun h => absurd rfl h⟩

theorem inv_fire (s : SLState) : Inv s.fire := by
  constructor <;> simp [SLState.fire]

theorem inv_flush (s : SLState) (h : Inv s) : Inv s.flush := by
  unfold SLState.flush
  split
  · exact inv_fire s
  · exact h

theorem inv_pushOp (s : SLState) (e : Entry) (h : Inv s) : Inv (s.pushOp e) := by
  unfold SLState.pushOp
  split
  · next hb =>
    have hne : s.buffer ≠ [] := by
      intro h0
      rw [h0] at hb
      simp at hb
    have hp : s.pending = true := h.2 hne
    have hfl : SLState.flush { s with buffer := s.buffer ++ [e] } =
        SLState.fire { s with buffer := s.buffer ++ [e] } := by
      simp [SLState.flush, hp]
    rw [hfl]
    exact inv_fire _
  · next hb =>
    exact ⟨Nat.le_of_not_lt hb, fun _ => rfl⟩

theorem inv_eraseBuf (s : SLState) (i : Nat) (h : Inv s) :
    Inv { s with buffer := s.buffer.eraseIdx i } := by
  constructor
  · exact le_trans (eraseIdx_len_le _ _) h.1
  · intro hne
    apply h.2
    intro h0
    rw [h0] at hne
    exact hne rfl

theorem inv_setBuf (s : SLState) (i : Nat) (e : Entry) (h : Inv s) :
    Inv { s with buffer := s.buffer.set i e } := by
  constructor
  · simpa [List.length_set] using h.1
  · intro hne
    apply h.2
    intro h0
    rw [h0] at hne
    simp at hne

theorem inv_remove (s : SLState) (sp : Obj) (h : Inv s) : Inv (s.remove sp) := by
  unfold SLState.remove
  repeat' split
  all_goals first
    | exact h
    | exact inv_pushOp _ _ h
    | exact inv_eraseBuf _ _ h
    | exact inv_pushOp _ _ (inv_eraseBuf _ _ h)

theorem inv_update (s : SLState) (sp c : Obj) (h : Inv s) : Inv (s.update sp c) := by
  unfold SLState.update
  repeat' split
  all_goals first
    | exact h
    | exact inv_pushOp _ _ h
    | exact inv_setBuf _ _ _ h

theorem inv_close (s : SLState) (h : Inv s) : Inv s.close := by
  have h2 := inv_flush s h
  exact ⟨h2.1, h2.2⟩

theorem inv_error (s : SLState) (m : String) (cl : Bool) (ps : Option Obj)
    (h : Inv s) : Inv (s.error m cl ps) := by
  unfold SLState.error
  have h2 := inv_pushOp s (.error m ps) h
  have h3 : Inv { s.pushOp (.error m ps) with lastError := some m } := ⟨h2.1, h2.2⟩
  split
  · exact inv_close _ h3
  · exact h3

theorem inv_applyOp (s : SLState) (op : PubOp) (h : Inv s) : Inv (applyOp s op) := by
  cases op with
  | add r => exact inv_pushOp _ _ h
  | addMany rs => exact inv_pushOp _ _ h
  | remove sp => exact inv_remove _ _ h
  | update sp c => exact inv_update _ _ _ h
  | ready => exact inv_pushOp _ _ h
  | custom v => exact inv_pushOp _ _ h
  | props p => exact inv_pushOp _ _ h
  | error m c p => exact inv_error _ _ _ _ h
  | close => exact inv_close _ h
  | timer => exact inv_flush _ h

theorem inv_runOps (s : SLState) (ops : List PubOp) (h : Inv s) :
    Inv (runOps s ops) := by
  induction ops generalizing s with
  | nil => exact h
  | cons op rest ih => exact ih (applyOp s op) (inv_applyOp s op h)

theorem inv_foldl_add (xs : List Obj) (s : SLState) (h : Inv s) :
    Inv (xs.foldl SLState.add s) := by
  induction xs generalizing s with
  | nil => exact h
  | cons x rest ih => exact ih (s.add x) (inv_pushOp s _ h)

theorem inv_mkSendList (xs : Option (List Obj)) : Inv (mkSendList xs) := by
  cases xs with
  | none => exact inv_initSL
  | some l => exact inv_pushOp _ _ (inv_foldl_add l initSL inv_initSL)

/-! Computation lemmas for the coalescing branches. -/

theorem pushOp_small (s : SLState) (e : Entry) (hlen : s.buffer.length < 10000) :
    s.pushOp e = { s with buffer := s.buffer ++ [e], pending := true } := by
  have hno : ¬ ((s.buffer ++ [e]).length > 10000) := by
    simp only [List.length_append, List.length_cons, List.length_nil]
    omega
  unfold SLState.pushOp
  rw [if_neg hno]

theorem flush_pending (s : SLState) (hp : s.pending = true) : s.flush = s.fire := by
  simp [SLState.flush, hp]

theorem remove_at_first_match (s : SLState) (search : Obj) (e : Entry)
    (pre rest : List Entry)
    (hbuf : s.buffer = pre ++ e :: rest)
    (hpre : ∀ a ∈ pre, matchesV search a.payload1 = false)
    (hm : matchesV search e.payload1 = true) :
    s.remove search =
      if e.tag = "remove" then s
      else if e.tag = "add" then { s with buffer := pre ++ rest }
      else ({ s with buffer := pre ++ rest }).pushOp (.remove search) := by
  unfold SLState.remove
  rw [hbuf, findIdx_first _ pre rest e hpre hm]
  simp only [getElem_mid, eraseIdx_mid]

theorem update_at_first_match (s : SLState) (search change : Obj) (e : Entry)
    (pre rest : List Entry)
    (hch : change.isEmpty = false)
    (hbuf : s.buffer = pre ++ e :: rest)
    (hpre : ∀ a ∈ pre, matchesV search a.payload1 = false)
    (hm : matchesV search e.payload1 = true) :
    s.update search change =
      if e.tag = "remove" then s
      else if e.tag = "add" || e.tag = "update" then
        { s with buffer := pre ++ e.mergeChange change :: rest }
      else s.pushOp (.update search change) := by
  unfold SLState.update
  rw [hbuf, findIdx_first _ pre rest e hpre hm]
  simp only [hch, Bool.false_eq_true, if_false, getElem_mid, set_mid]

/-! Claim theorems. -/

/-- C1 (amended): on a Broadcaster whose buffer holds no entry matching
the spec s and has room below the hard limit, add(x) followed by
remove(s) with s matching x cancels fully: buffer and emission trace
return to their prior values, and the next flush emits only the
previously buffered entries — the empty batch on a fresh Broadcaster.
If some earlier buffered entry matches s the cancellation can fail, see
the counterexample. -/
theorem C1_add_then_remove_cancels (s : SLState) (x search : Obj)
    (hlen : s.buffer.length < 10000)
    (hnone : ∀ e ∈ s.buffer, matchesV search e.payload1 = false)
    (hm : matchesObj search x = true) :
    ((s.add x).remove search).buffer = s.buffer ∧
    ((s.add x).remove search).out = s.out ∧
    ((s.add x).remove search).flush.out = s.out ++ [Out.batch s.buffer] := by
  have hadd : s.add x = { s with buffer := s.buffer ++ [Entry.add x], pending := true } :=
    pushOp_small s _ hlen
  have hrem : (s.add x).remove search = { s with pending := true } := by
    rw [hadd]
    have h2 := remove_at_first_match
      { s with buffer := s.buffer ++ [Entry.add x], pending := true }
      search (Entry.add x) s.buffer [] rfl hnone hm
    simp only [Entry.tag] at h2
    rw [h2]
    simp
  refine ⟨by rw [hrem], by rw [hrem], ?_⟩
  rw [hrem, flush_pending _ rfl]
  rfl

/-- C1 witness: on a fresh Broadcaster, add of the record id 1 followed
by remove of the spec id 1 yields an empty flushed batch. -/
theorem C1_add_then_remove_cancels_witness :
    (((initSL.add [("id", "1")]).remove [("id", "1")]).flush).out =
      [Out.batch []] := by
  have h := C1_add_then_remove_cancels initSL [("id", "1")] [("id", "1")]
    (by decide) (by intro e he; simp [initSL] at he) (by decide)
  exact h.2.2

/-- C1 counterexample: the claim quantifies over every Broadcaster, but
after remove(id 1), add(id 1), remove(id 1) the second remove hits the
still-buffered first Remove entry and returns, so the buffered Add
survives and the flushed batch contains it — not the claimed full
cancellation. -/
theorem C1_counterexample :
    ((((mkSendList none).remove [("id", "1")]).add [("id", "1")]).remove
        [("id", "1")]).flush.out =
      [Out.batch [Entry.remove [("id", "1")], Entry.add [("id", "1")]]] := by
  decide

/-- C2 (amended): on a Broadcaster whose buffer holds no entry matching
the spec s and has room below the hard limit, add(x) followed by
update(s, c) with non-empty c and s matching x appends nothing: the
change is merged field-wise into the buffered Add, which then carries x
merged with c; likewise, on any Broadcaster whose first buffered entry
matching s is an Update, the change is merged into that entry's change
payload.  If some earlier buffered entry matches s the merge can land
elsewhere or be dropped, see the counterexample. -/
theorem C2_add_then_update_merges (s : SLState) (x search change : Obj)
    (hlen : s.buffer.length < 10000)
    (hch : change.isEmpty = false)
    (hnone : ∀ e ∈ s.buffer, matchesV search e.payload1 = false)
    (hm : matchesObj search x = true) :
    (((s.add x).update search change).buffer =
        s.buffer ++ [Entry.add (assignObj x change)] ∧
      ((s.add x).update search change).out = s.out) ∧
    (∀ (t : SLState) (usearch uchange : Obj) (pre rest : List Entry),
      t.buffer = pre ++ Entry.update usearch uchange :: rest →
      (∀ a ∈ pre, matchesV search a.payload1 = false) →
      matchesObj search usearch = true →
      (t.update search change).buffer =
        pre ++ Entry.update usearch (assignObj uchange change) :: rest ∧
      (t.update search change).out = t.out) := by
  constructor
  · have hadd : s.add x = { s with buffer := s.buffer ++ [Entry.add x], pending := true } :=
      pushOp_small s _ hlen
    rw [hadd]
    have h2 := update_at_first_match
      { s with buffer := s.buffer ++ [Entry.add x], pending := true }
      search change (Entry.add x) s.buffer [] hch rfl hnone hm
    simp only [Entry.tag, Entry.mergeChange] at h2
    rw [h2]
    constructor <;> simp
  · intro t usearch uchange pre rest hbuf hpre hum
    have h2 := update_at_first_match t search change (Entry.update usearch uchange)
      pre rest hch hbuf hpre hum
    simp only [Entry.tag, Entry.mergeChange] at h2
    rw [h2]
    constructor <;> simp

/-- C2 witness: on a fresh Broadcaster, add of the record (id 1, n 0)
then update of spec id 1 with change n 5 leaves a single buffered Add
carrying the merged record (id 1, n 5). -/
theorem C2_add_then_update_merges_witness :
    ((initSL.add [("id", "1"), ("n", "0")]).update [("id", "1")]
        [("n", "5")]).buffer =
      [Entry.add [("id", "1"), ("n", "5")]] := by
  have h := C2_add_then_update_merges initSL [("id", "1"), ("n", "0")]
    [("id", "1")] [("n", "5")]
    (by decide) (by decide) (by intro e he; simp [initSL] at he) (by decide)
  exact h.1.1

/-- C2 counterexample: the claim quantifies over every Broadcaster, but
after remove(id 1), add(id 1, n 0), update(id 1, n 5) the update hits
the still-buffered Remove entry first and is silently dropped, so the
buffered Add still carries the unmerged record (id 1, n 0). -/
theorem C2_counterexample :
    ((((mkSendList none).remove [("id", "1")]).add
        [("id", "1"), ("n", "0")]).update [("id", "1")] [("n", "5")]).buffer =
      [Entry.remove [("id", "1")], Entry.add [("id", "1"), ("n", "0")]] := by
  decide

/-- C3 (amended): when the first buffered entry matching s is an Update,
remove(s) splices that Update out of the buffer, discarding its pending
change, and still enqueues a Remove entry for s at the end of the
buffer, emitting nothing.  When an earlier buffered entry matches s the
remove acts on that entry instead, see the counterexample. -/
theorem C3_remove_downgrades_buffered_update (s : SLState)
    (search usearch uchange : Obj) (pre rest : List Entry)
    (hbuf : s.buffer = pre ++ Entry.update usearch uchange :: rest)
    (hlen : s.buffer.length ≤ 10000)
    (hpre : ∀ a ∈ pre, matchesV search a.payload1 = false)
    (hm : matchesObj search usearch = true) :
    (s.remove search).buffer = (pre ++ rest) ++ [Entry.remove search] ∧
    (s.remove search).out = s.out := by
  have h := remove_at_first_match s search (Entry.update usearch uchange)
    pre rest hbuf hpre hm
  simp only [Entry.tag] at h
  rw [if_neg (show ¬ ("update" : String) = "remove" by decide),
    if_neg (show ¬ ("update" : String) = "add" by decide)] at h
  have hlen2 : (pre ++ rest).length < 10000 := by
    rw [hbuf] at hlen
    simp only [List.length_append, List.length_cons] at hlen ⊢
    omega
  rw [h, pushOp_small _ _ hlen2]
  exact ⟨rfl, rfl⟩

/-- C3 witness: a buffered Update of spec a 1, removed by a matching
remove(a 1), leaves exactly one buffered Remove entry and emits
nothing. -/
theorem C3_remove_downgrades_buffered_update_witness :
    ((initSL.update [("a", "1")] [("c", "9")]).remove [("a", "1")]).buffer =
      [Entry.remove [("a", "1")]] ∧
    ((initSL.update [("a", "1")] [("c", "9")]).remove [("a", "1")]).out = [] := by
  have h := C3_remove_downgrades_buffered_update
    (initSL.update [("a", "1")] [("c", "9")]) [("a", "1")] [("a", "1")]
    [("c", "9")] [] [] (by decide) (by decide)
    (by intro a ha; simp at ha) (by decide)
  exact ⟨h.1, h.2⟩

/-- C3 counterexample: after add(a 1 b 1), update(a 1 b 2, c 9),
remove(a 1) the buffer holds an Update whose matched record (a 1, b 1)
satisfies the spec a 1, yet the remove hits the buffered Add first,
cancels it and returns: the Update entry survives and no Remove entry is
enqueued, contrary to the claim. -/
theorem C3_counterexample :
    ((((mkSendList none).add [("a", "1"), ("b", "1")]).update
        [("a", "1"), ("b", "2")] [("c", "9")]).remove [("a", "1")]).buffer =
      [Entry.update [("a", "1"), ("b", "2")] [("c", "9")]] := by
  decide

/-- C4 (amended): a remove(s) whose first buffered entry matching s is a
Remove entry is a complete no-op, leaving the whole Broadcaster state
unchanged.  After that earlier Remove has been flushed the buffer no
longer records it, and a repeated remove(s) enqueues a fresh Remove
entry — idempotent in its effect on the client's mirrored list, but not
a buffer no-op, see the counterexample. -/
theorem C4_remove_idempotent_while_buffered (s : SLState) (search r0 : Obj)
    (pre rest : List Entry)
    (hbuf : s.buffer = pre ++ Entry.remove r0 :: rest)
    (hpre : ∀ a ∈ pre, matchesV search a.payload1 = false)
    (hm : matchesObj search r0 = true) :
    s.remove search = s := by
  have h := remove_at_first_match s search (Entry.remove r0) pre rest hbuf hpre hm
  simp [Entry.tag] at h
  exact h

/-- C4 witness: a second remove of the spec id 1 right after a first one
leaves the state of the first untouched. -/
theorem C4_remove_idempotent_while_buffered_witness :
    ((mkSendList none).remove [("id", "1")]).remove [("id", "1")] =
      (mkSendList none).remove [("id", "1")] := by
  have h := C4_remove_idempotent_while_buffered
    ((mkSendList none).remove [("id", "1")]) [("id", "1")] [("id", "1")]
    [] [] (by decide) (by intro a ha; simp at ha) (by decide)
  exact h

/-- C4 counterexample: once the first Remove has been flushed, a repeated
remove of the same spec is not a no-op: it appends a fresh Remove entry
to the now-empty buffer, contradicting the claim for the already-flushed
case. -/
theorem C4_counterexample :
    (((mkSendList none).remove [("id", "1")]).flush.remove
        [("id", "1")]).buffer = [Entry.remove [("id", "1")]] := by
  decide

/-- C10 (amended): an update(s, c) with non-empty c whose first buffered
entry matching s is a Remove entry is silently dropped: the whole
Broadcaster state is unchanged.  When an earlier buffered entry matches
s the update acts on that entry even though a matching Remove sits in
the buffer, see the counterexample. -/
theorem C10_update_dropped_on_buffered_remove (s : SLState)
    (search change r0 : Obj) (pre rest : List Entry)
    (hch : change.isEmpty = false)
    (hbuf : s.buffer = pre ++ Entry.remove r0 :: rest)
    (hpre : ∀ a ∈ pre, matchesV search a.payload1 = false)
    (hm : matchesObj search r0 = true) :
    s.update search change = s := by
  have h := update_at_first_match s search change (Entry.remove r0)
    pre rest hch hbuf hpre hm
  simp [Entry.tag] at h
  exact h

/-- C10 witness: update of spec id 1 right after remove of spec id 1 on
a fresh Broadcaster changes nothing. -/
theorem C10_update_dropped_on_buffered_remove_witness :
    ((mkSendList none).remove [("id", "1")]).update [("id", "1")]
        [("n", "2")] =
      (mkSendList none).remove [("id", "1")] := by
  have h := C10_update_dropped_on_buffered_remove
    ((mkSendList none).remove [("id", "1")]) [("id", "1")] [("n", "2")]
    [("id", "1")] [] [] (by decide) (by decide)
    (by intro a ha; simp at ha) (by decide)
  exact h

/-- C10 counterexample: with a buffered Add of (a 1, b 1) before a
buffered Remove of spec (a 1, b 2), an update of spec a 1 — which the
Remove entry's spec matches — is not dropped: it merges the change c 9
into the Add entry, changing the buffer. -/
theorem C10_counterexample :
    ((((mkSendList none).add [("a", "1"), ("b", "1")]).remove
        [("a", "1"), ("b", "2")]).update [("a", "1")] [("c", "9")]).buffer =
      [Entry.add [("a", "1"), ("b", "1"), ("c", "9")],
        Entry.remove [("a", "1"), ("b", "2")]] := by
  decide

/-- C5: starting from any state satisfying the buffer invariant — the
initial state and every constructor state do — every sequence of public
operations keeps the buffer length at most 10000, entries leaving only
through a flush or through the coalescing of remove and update; and an
enqueue that pushes the length beyond 10000 executes the flush at once,
bypassing the debounce window, emitting the whole buffer as one batch and
leaving the buffer empty. -/
theorem C5_hard_limit_bounds_buffer :
    (∀ start ops, Inv start → Inv (runOps start ops)) ∧
    (∀ xs, Inv (mkSendList xs)) ∧
    (∀ (s : SLState) (e : Entry), Inv s → (s.buffer ++ [e]).length > 10000 →
      (s.pushOp e).buffer = [] ∧
      (s.pushOp e).out = s.out ++ [Out.batch (s.buffer ++ [e])]) := by
  refine ⟨fun start ops h => inv_runOps start ops h, inv_mkSendList, ?_⟩
  intro s e h hb
  have hne : s.buffer ≠ [] := by
    intro h0
    rw [h0] at hb
    simp at hb
  have hp : s.pending = true := h.2 hne
  unfold SLState.pushOp
  rw [if_pos hb]
  rw [flush_pending _ (by exact hp)]
  exact ⟨rfl, rfl⟩

/-- C5 witness: on an invariant-satisfying state whose buffer already
holds 10000 entries, one more enqueue flushes immediately: the buffer
empties and the 10001-entry batch is emitted. -/
theorem C5_hard_limit_bounds_buffer_witness :
    (SLState.pushOp ⟨List.replicate 10000 Entry.ready, [], true, none⟩
        Entry.ready).buffer = [] ∧
    (SLState.pushOp ⟨List.replicate 10000 Entry.ready, [], true, none⟩
        Entry.ready).out =
      [Out.batch (List.replicate 10000 Entry.ready ++ [Entry.ready])] := by
  have h1 : Inv ⟨List.replicate 10000 Entry.ready, [], true, none⟩ := by
    constructor
    · show (List.replicate 10000 Entry.ready).length ≤ 10000
      rw [List.length_replicate]
    · intro _
      rfl
  have h2 : ((⟨List.replicate 10000 Entry.ready, [], true, none⟩ :
      SLState).buffer ++ [Entry.ready]).length > 10000 := by
    show (List.replicate 10000 Entry.ready ++ [Entry.ready]).length > 10000
    rw [List.length_append, List.length_replicate, List.length_cons,
      List.length_nil]
    omega
  exact C5_hard_limit_bounds_buffer.2.2 _ _ h1 h2

/-- C6 (amended): close() flushes the pending buffered operations as a
final batch and only then emits the stream terminator, leaving the
buffer empty; but the Broadcaster does not guard against use after
termination: an add on the closed Broadcaster still appends a buffered
Add entry and schedules a flush — the claimed rejection of operations
after termination does not hold, see the counterexample. -/
theorem C6_close_flushes_then_terminates (s : SLState) (x : Obj)
    (hp : s.pending = true) :
    s.close.out = s.out ++ [Out.batch s.buffer, Out.eof] ∧
    s.close.buffer = [] ∧
    (s.close.add x).buffer = [Entry.add x] ∧
    (s.close.add x).pending = true := by
  have hcl : s.close = { s.fire with out := s.fire.out ++ [Out.eof] } := by
    unfold SLState.close
    rw [flush_pending s hp]
  have hsm := pushOp_small { s.fire with out := s.fire.out ++ [Out.eof] }
    (Entry.add x) (by simp [SLState.fire])
  refine ⟨?_, ?_, ?_, ?_⟩
  · rw [hcl]
    simp [SLState.fire]
  · rw [hcl]
    rfl
  · rw [hcl]
    unfold SLState.add
    rw [hsm]
    rfl
  · rw [hcl]
    unfold SLState.add
    rw [hsm]

/-- C6 witness: with one buffered Add, close emits that batch then the
terminator, and an add on the closed Broadcaster buffers a fresh Add. -/
theorem C6_close_flushes_then_terminates_witness :
    ((initSL.add [("a", "1")]).close).out =
      [Out.batch [Entry.add [("a", "1")]], Out.eof] ∧
    ((initSL.add [("a", "1")]).close).buffer = [] ∧
    (((initSL.add [("a", "1")]).close).add [("b", "2")]).buffer =
      [Entry.add [("b", "2")]] := by
  have h := C6_close_flushes_then_terminates (initSL.add [("a", "1")])
    [("b", "2")] (by decide)
  exact ⟨h.1, h.2.1, h.2.2.1⟩

/-- C6 counterexample: on a closed Broadcaster — terminator already
emitted — add is not rejected: it leaves a pending buffered Add, where
the claim demands that every operation on a closed Broadcaster leave no
pending buffered operation. -/
theorem C6_counterexample :
    ((mkSendList none).close.add [("k", "v")]).buffer =
      [Entry.add [("k", "v")]] ∧
    ((mkSendList none).close.add [("k", "v")]).out = [Out.eof] := by
  decide

/-- C9: a Broadcaster constructed with addAtStart two records a and b
buffers an Add for a, an Add for b and a Ready, in that order, and the
first flush emits exactly that batch in that order. -/
theorem C9_addAtStart_order (a b : Obj) :
    (mkSendList (some [a, b])).buffer = [Entry.add a, Entry.add b, Entry.ready] ∧
    (mkSendList (some [a, b])).flush.out =
      [Out.batch [Entry.add a, Entry.add b, Entry.ready]] := by
  constructor <;> rfl

/-- C7 (amended): on a request whose path has a registered handler, a
present and non-empty csrf cookie that differs from the csrf parameter
yields status 401 with body csrf and the handler is never invoked; the
handler is invoked when the cookie equals the parameter, when no csrf
cookie is present, and — contrary to the claim, which demands the 401
for every present cookie — also when the cookie value is the empty
string, which is falsy, see the counterexample. -/
theorem C7_csrf_gate (apis : List (String × (Obj → HandlerOutcome)))
    (ctx : Ctx) (f : Obj → HandlerOutcome)
    (hf : apis.lookup ctx.path = some f) :
    (∀ c, ctx.csrfCookie = some c → c ≠ "" →
      ctx.params.lookup "csrf" ≠ some c →
      dispatch apis ctx = (Response.json 401 (JsVal.str "csrf"), false)) ∧
    (∀ c, ctx.csrfCookie = some c → ctx.params.lookup "csrf" = some c →
      dispatch apis ctx = (classify (settle f ctx.params), true)) ∧
    (ctx.csrfCookie = none →
      dispatch apis ctx = (classify (settle f ctx.params), true)) ∧
    (ctx.csrfCookie = some "" →
      dispatch apis ctx = (classify (settle f ctx.params), true)) := by
  refine ⟨?_, ?_, ?_, ?_⟩
  · intro c hc hne hnp
    have hb : csrfBlocked ctx.csrfCookie ctx.params = true := by
      rw [hc]
      simp only [csrfBlocked, Bool.and_eq_true, bne_iff_ne]
      exact ⟨hne, hnp⟩
    simp [dispatch, hf, hb]
  · intro c hc hp
    have hb : csrfBlocked ctx.csrfCookie ctx.params = false := by
      rw [hc]
      simp [csrfBlocked, hp]
    simp [dispatch, hf, hb]
  · intro hc
    have hb : csrfBlocked ctx.csrfCookie ctx.params = false := by
      rw [hc]
      rfl
    simp [dispatch, hf, hb]
  · intro hc
    have hb : csrfBlocked ctx.csrfCookie ctx.params = false := by
      rw [hc]
      simp [csrfBlocked]
    simp [dispatch, hf, hb]

/-- C7 witness: cookie tok against parameter bad yields the 401 with the
handler never invoked. -/
theorem C7_csrf_gate_witness :
    dispatch [("/a", fun _ => HandlerOutcome.ret (JsVal.obj []))]
      ⟨"/a", some "tok", [("csrf", "bad")]⟩ =
      (Response.json 401 (JsVal.str "csrf"), false) := by
  have h := C7_csrf_gate [("/a", fun _ => HandlerOutcome.ret (JsVal.obj []))]
    ⟨"/a", some "tok", [("csrf", "bad")]⟩ (fun _ => HandlerOutcome.ret (JsVal.obj []))
    rfl
  exact h.1 "tok" rfl (by decide) (by decide)

/-- C7 counterexample: the request carries the cookie csrf with the empty
value and the parameter csrf xyz; the values differ, yet the handler runs
and the status is 200, not the claimed 401 — the empty cookie string is
falsy and skips the check. -/
theorem C7_counterexample :
    dispatch [("/p", fun _ => HandlerOutcome.ret (JsVal.obj [("ok", "1")]))]
      ⟨"/p", some "", [("csrf", "xyz")]⟩ =
      (Response.json 200 (JsVal.obj [("ok", "1")]), true) := by
  rfl

/-- C8 (amended): every value the handler throws is caught and turned
into a response at the dispatcher boundary; a thrown ApiError yields its
declared status with its message as body, and any other thrown Error
instance yields status 400 with its message, or its string form when the
message is empty.  A thrown value that is not an Error instance is not
mapped to 400 as the claim states: it falls through to the plain-result
path and is delivered with status 200, see the counterexample. -/
theorem C8_thrown_errors_mapped (apis : List (String × (Obj → HandlerOutcome)))
    (ctx : Ctx) (f : Obj → HandlerOutcome) (v : JsVal)
    (hf : apis.lookup ctx.path = some f)
    (hc : ctx.csrfCookie = none)
    (hv : f ctx.params = HandlerOutcome.thr v) :
    dispatch apis ctx = (classify v, true) ∧
    (∀ st m, v = JsVal.apiErr st m →
      dispatch apis ctx = (Response.json st (JsVal.str m), true)) ∧
    (∀ m, v = JsVal.genErr m →
      dispatch apis ctx = (Response.json 400 (JsVal.str (errString m)), true)) ∧
    (∀ s2, v = JsVal.str s2 →
      dispatch apis ctx = (Response.json 200 (JsVal.str s2), true)) := by
  have h1 : dispatch apis ctx = (classify v, true) := by
    have hb : csrfBlocked ctx.csrfCookie ctx.params = false := by
      rw [hc]
      rfl
    simp [dispatch, hf, hb, settle, hv]
  refine ⟨h1, ?_, ?_, ?_⟩
  · intro st m hm
    rw [h1, hm]
    rfl
  · intro m hm
    rw [h1, hm]
    rfl
  · intro s2 hm
    rw [h1, hm]
    rfl

/-- C8 witness: a handler that throws ApiError 403 forbidden produces the
response status 403 with body forbidden, with the throw caught at the
dispatcher. -/
theorem C8_thrown_errors_mapped_witness :
    dispatch [("/p", fun _ => HandlerOutcome.thr (JsVal.apiErr 403 "forbidden"))]
      ⟨"/p", none, []⟩ =
      (Response.json 403 (JsVal.str "forbidden"), true) := by
  have h := C8_thrown_errors_mapped
    [("/p", fun _ => HandlerOutcome.thr (JsVal.apiErr 403 "forbidden"))]
    ⟨"/p", none, []⟩ (fun _ => HandlerOutcome.thr (JsVal.apiErr 403 "forbidden"))
    (JsVal.apiErr 403 "forbidden") rfl rfl rfl
  exact h.2.1 403 "forbidden" rfl

/-- C8 counterexample: a handler that throws the plain string oops — not
an Error instance — gets status 200 with the string as body, not the
claimed status 400. -/
theorem C8_counterexample :
    dispatch [("/p", fun _ => HandlerOutcome.thr (JsVal.str "oops"))]
      ⟨"/p", none, []⟩ =
      (Response.json 200 (JsVal.str "oops"), true) ∧
    (dispatch [("/p", fun _ => HandlerOutcome.thr (JsVal.str "oops"))]
      ⟨"/p", none, []⟩).1 ≠ Response.json 400 (JsVal.str "oops") := by
  exact ⟨rfl, by decide⟩

end HFS
